import Mathlib

/-!
Verification of the query-builder and keyset-pagination core of the
postgresql_helper repository (schema.go, the `Query` type), against its
natural-language specification. The Go code is shallowly embedded: the
builder configuration is a Lean structure, Go `interface{}` bind values
become `GoValue`, mutators and `WithCursor` / `WithCompositeCursor` /
`buildSelectQuery` / `GetPage` become pure Lean functions of the same
shape. Go slice aliasing (the one place value semantics and Go diverge)
is modelled separately with an explicit heap of backing arrays.
-/

namespace PgHelper

/-- Embedding of a Go `interface{}` bind value: nil, an int, or a string.
    `GoValue.null` is the nil interface value. -/
inductive GoValue where
  | null : GoValue
  | int : Int → GoValue
  | str : String → GoValue
deriving DecidableEq, Repr

/-- Embedding of `types.QueryConfig` (types/types.go). -/
structure QueryConfig where
  SelectFields : List String
  WhereClause : String
  OrderBy : String
  Limit : Int
  Offset : Int
  JoinClauses : List String
  GroupBy : String
  Having : String
  ForUpdate : Bool
deriving DecidableEq, Repr

/-- The all-zero configuration a fresh Go `Query` starts from. -/
def QueryConfig.empty : QueryConfig :=
  { SelectFields := [], WhereClause := "", OrderBy := "", Limit := 0,
    Offset := 0, JoinClauses := [], GroupBy := "", Having := "",
    ForUpdate := false }

/-- Embedding of the Go `Query` value (schema.go): table name, clause
    configuration and positional argument list. The `*DB` handle carries
    no query-building state and is omitted. -/
structure Query where
  table : String
  config : QueryConfig
  args : List GoValue
deriving DecidableEq, Repr

/-- Embedding of `types.Cursor`: `KeyValue interface{}` (null when the Go
    field is nil), traversal direction and page size. -/
structure Cursor where
  KeyValue : GoValue
  Forward : Bool
  Limit : Int
deriving DecidableEq, Repr

/-- Embedding of one entry of `types.CompositeCursor.OrderFields`. -/
structure OrderField where
  Name : String
  Direction : String
deriving DecidableEq, Repr

/-- Embedding of `types.CompositeCursor`. The Go map `KeyValues` is an
    association list looked up by field name. -/
structure CompositeCursor where
  KeyValues : List (String × GoValue)
  OrderFields : List OrderField
  Forward : Bool
  Limit : Int
deriving DecidableEq, Repr

/-- Splitting pass behind `goFields`, structurally over the character
    list, with the current field accumulated in reverse. -/
def fieldsAux : List Char → List Char → List (List Char)
  | [], acc => if acc = [] then [] else [acc.reverse]
  | c :: cs, acc =>
    if c.isWhitespace then
      (if acc = [] then fieldsAux cs [] else acc.reverse :: fieldsAux cs [])
    else fieldsAux cs (c :: acc)

/-- Go `strings.Fields`: split around runs of whitespace; no empty
    fields. -/
def goFields (s : String) : List String :=
  (fieldsAux s.data []).map (fun cs => String.mk cs)

/-- Go `strings.ToUpper` on the ASCII fragments the builder handles. -/
def goToUpper (s : String) : String :=
  String.mk (s.data.map Char.toUpper)

/-- Embedding of Query.Select (schema.go): clone, replace the select-field list. -/
def Query.SelectQ (q : Query) (fields : List String) : Query :=
  { q with config := { q.config with SelectFields := fields } }

/-- Embedding of Query.Where (schema.go): clone, replace WHERE fragment and the whole
    argument list. -/
def Query.WhereQ (q : Query) (conditions : String) (args : List GoValue) : Query :=
  { q with config := { q.config with WhereClause := conditions }, args := args }

/-- Embedding of Query.OrderBy (schema.go): clone, replace the ORDER BY fragment. -/
def Query.OrderByQ (q : Query) (fields : String) : Query :=
  { q with config := { q.config with OrderBy := fields } }

/-- Embedding of Query.Limit (schema.go): clone, replace the limit. -/
def Query.LimitQ (q : Query) (n : Int) : Query :=
  { q with config := { q.config with Limit := n } }

/-- Embedding of Query.Offset (schema.go): clone, replace the offset. -/
def Query.OffsetQ (q : Query) (n : Int) : Query :=
  { q with config := { q.config with Offset := n } }

/-- Embedding of Query.Join (schema.go): clone, append one join fragment. At the value
    level this is a functional append; the Go-slice aliasing of the
    shared backing array is modelled below with `goAppend1`. -/
def Query.JoinQ (q : Query) (joinClause : String) : Query :=
  { q with config := { q.config with JoinClauses := q.config.JoinClauses ++ [joinClause] } }

/-- Embedding of Query.GroupBy (schema.go): clone, replace the GROUP BY fragment. -/
def Query.GroupByQ (q : Query) (fields : String) : Query :=
  { q with config := { q.config with GroupBy := fields } }

/-- Embedding of Query.Having (schema.go): clone, replace the HAVING fragment. -/
def Query.HavingQ (q : Query) (conditions : String) : Query :=
  { q with config := { q.config with Having := conditions } }

/-- Embedding of Query.ForUpdate (schema.go): clone, set the locking flag. -/
def Query.ForUpdateQ (q : Query) : Query :=
  { q with config := { q.config with ForUpdate := true } }

/-- Embedding of Query.buildSelectQuery (schema.go): renders the configuration into a
    SQL string, clause by clause in the fixed source order. -/
def Query.buildSelectQuery (q : Query) : String :=
  let s := "SELECT "
  let s := s ++ (if q.config.SelectFields.length > 0 then
      String.intercalate ", " q.config.SelectFields else "*")
  let s := s ++ " FROM " ++ q.table
  let s := q.config.JoinClauses.foldl (fun acc j => acc ++ " " ++ j) s
  let s := s ++ (if q.config.WhereClause ≠ "" then " WHERE " ++ q.config.WhereClause else "")
  let s := s ++ (if q.config.GroupBy ≠ "" then " GROUP BY " ++ q.config.GroupBy else "")
  let s := s ++ (if q.config.Having ≠ "" then " HAVING " ++ q.config.Having else "")
  let s := s ++ (if q.config.OrderBy ≠ "" then " ORDER BY " ++ q.config.OrderBy else "")
  let s := s ++ (if q.config.Limit > 0 then " LIMIT " ++ toString q.config.Limit else "")
  let s := s ++ (if q.config.Offset > 0 then " OFFSET " ++ toString q.config.Offset else "")
  let s := s ++ (if q.config.ForUpdate then " FOR UPDATE" else "")
  s

/-- Embedding of Query.WithCursor (schema.go). `cursor = none` is a nil `*Cursor`.
    The source indexes `orderParts[1]` after padding a short list with
    "ASC"; when the padded list still has fewer than two entries (an all
    whitespace ORDER BY, reachable by no claim) Go would panic, and the
    embedding reads the empty string there. -/
def Query.WithCursor (q : Query) (keyField : String) (cursor : Option Cursor) : Query :=
  match cursor with
  | none => q
  | some c =>
    if keyField = "" then q
    else
      let newQuery := if c.Limit > 0 then q.LimitQ (c.Limit + 1) else q
      if c.KeyValue = GoValue.null then newQuery
      else
        let orderBy := newQuery.config.OrderBy
        let st :=
          if orderBy = "" then
            let ob := keyField ++ " ASC"
            (ob, newQuery.OrderByQ ob)
          else (orderBy, newQuery)
        let orderBy := st.1
        let newQuery := st.2
        let orderParts := goFields orderBy
        let orderParts := if orderParts.length < 2 then orderParts ++ ["ASC"] else orderParts
        let orderDirection := goToUpper (orderParts.getD 1 "")
        let compareOp :=
          if c.Forward then (if orderDirection = "ASC" then ">" else "<")
          else (if orderDirection = "ASC" then "<" else ">")
        let whereClause := keyField ++ " " ++ compareOp ++ " ?"
        if newQuery.config.WhereClause ≠ "" then
          { newQuery with
            config := { newQuery.config with
              WhereClause := "(" ++ newQuery.config.WhereClause ++ ") AND (" ++ whereClause ++ ")" },
            args := newQuery.args ++ [c.KeyValue] }
        else
          { newQuery with
            config := { newQuery.config with WhereClause := whereClause },
            args := [c.KeyValue] }

/-- Embedding of Query.WithCompositeCursor (schema.go). -/
def Query.WithCompositeCursor (q : Query) (cursor : Option CompositeCursor) : Query :=
  match cursor with
  | none => q
  | some c =>
    if c.KeyValues.length = 0 ∨ c.OrderFields.length = 0 then q
    else
      let newQuery := q
      let newQuery := if c.Limit > 0 then
          { newQuery with config := { newQuery.config with Limit := c.Limit + 1 } }
        else newQuery
      let orderParts := c.OrderFields.map (fun f => f.Name ++ " " ++ f.Direction)
      let orderBy := String.intercalate ", " orderParts
      let newQuery := { newQuery with config := { newQuery.config with OrderBy := orderBy } }
      let fieldNames := c.OrderFields.map (fun f => f.Name)
      let fieldValues := c.OrderFields.map (fun f =>
        match c.KeyValues.lookup f.Name with
        | some v => v
        | none => GoValue.null)
      let fieldPlaceholders := c.OrderFields.map (fun _ => "?")
      let compareOp := if c.Forward then ">" else "<"
      let whereClause := "(" ++ String.intercalate ", " fieldNames ++ ") " ++
        compareOp ++ " (" ++ String.intercalate ", " fieldPlaceholders ++ ")"
      if newQuery.config.WhereClause ≠ "" then
        { newQuery with
          config := { newQuery.config with
            WhereClause := "(" ++ newQuery.config.WhereClause ++ ") AND (" ++ whereClause ++ ")" },
          args := newQuery.args ++ fieldValues }
      else
        { newQuery with
          config := { newQuery.config with WhereClause := whereClause },
          args := fieldValues }

/-- Embedding of one element of the destination slice handed to GetPage,
    as seen through the reflection in schema.go: either a struct value
    whose fields (name, value) appear in declaration order, or a value
    of any other kind (for example the `*TestUser` pointers used by the
    repository tests), from which no field can be read. -/
inductive Row where
  | struct : List (String × GoValue) → Row
  | notStruct : Row
deriving DecidableEq, Repr

/-- The key extraction of Query.GetPage (schema.go): when the item is a
    struct with at least one field take `Field(0).Interface()`, otherwise
    the `keyValue` variable stays the nil interface. -/
def rowField0 : Row → GoValue
  | Row.struct ((_, v) :: _) => v
  | Row.struct [] => GoValue.null
  | Row.notStruct => GoValue.null

/-- Value of a named field of a row, used only to STATE properties about
    which value the code ought to have picked; the code itself never
    looks a field up by name. -/
def rowFieldNamed (r : Row) (name : String) : GoValue :=
  match r with
  | Row.struct fields =>
    match fields.lookup name with
    | some v => v
    | none => GoValue.null
  | Row.notStruct => GoValue.null

/-- Embedding of `types.PageResult`. `Data` is the (possibly trimmed)
    destination slice contents. -/
structure PageResult where
  Data : List Row
  TotalCount : Int
  NextCursor : Option Cursor
  PrevCursor : Option Cursor
  HasNext : Bool
  HasPrev : Bool
deriving DecidableEq, Repr

/-- Pure core of Query.GetPage (schema.go): given the query that was
    executed and the rows the database returned for it, assemble the
    page result. The two `Index` calls of the source are modelled with
    `getLast?` and `head?`; both are reachable only on nonempty slices,
    exactly as in the source. -/
def Query.GetPage (q : Query) (rows : List Row) : PageResult :=
  let originalLimit := q.config.Limit
  let resultCount := rows.length
  let hasMore := decide (originalLimit > 0) && decide ((resultCount : Int) > originalLimit)
  let st :=
    if hasMore && decide (resultCount > 0) then
      let data := rows.take (resultCount - 1)
      let keyValue :=
        match data.getLast? with
        | some r => rowField0 r
        | none => GoValue.null
      let nextCursor :=
        if keyValue ≠ GoValue.null then
          some { KeyValue := keyValue, Forward := true, Limit := originalLimit }
        else none
      (data, true, nextCursor)
    else (rows, false, (none : Option Cursor))
  let data := st.1
  let hasNext := st.2.1
  let nextCursor := st.2.2
  let st2 :=
    if q.config.WhereClause ≠ "" ∧ resultCount > 0 then
      let keyValue :=
        match data.head? with
        | some r => rowField0 r
        | none => GoValue.null
      let prevCursor :=
        if keyValue ≠ GoValue.null then
          some { KeyValue := keyValue, Forward := false, Limit := originalLimit }
        else none
      (true, prevCursor)
    else (false, (none : Option Cursor))
  { Data := data, TotalCount := 0, NextCursor := nextCursor,
    PrevCursor := st2.2, HasNext := hasNext, HasPrev := st2.1 }

/-- SQL string built by Query.Count (schema.go): COUNT over the table
    with the current WHERE fragment; every other clause is ignored. -/
def Query.countQuery (q : Query) : String :=
  "SELECT COUNT(*) FROM " ++ q.table ++
    (if q.config.WhereClause ≠ "" then " WHERE " ++ q.config.WhereClause else "")

/-- The temporary query Query.GetPage builds for the count round trip:
    a copy of the executed query with only the limit reset to zero and
    the argument list copied. -/
def Query.pageCountTemp (q : Query) : Query :=
  { q with config := { q.config with Limit := 0 } }

/-- Embedding of Query.GetPage with its two database round trips made explicit: the
    data query answer and, when `withCount` is set, the count query
    answer, each either rows/a number or a database error string. A
    failure is wrapped by `wrapError` with the operation name, which for
    a plain error renders as `operation: err`. -/
def Query.GetPageE (q : Query) (dataRes : Except String (List Row))
    (withCount : Bool) (countRes : Except String Int) : Except String PageResult :=
  match dataRes with
  | Except.error e => Except.error ("execute page query: " ++ e)
  | Except.ok rows =>
    let result := q.GetPage rows
    if withCount then
      match countRes with
      | Except.error e => Except.error ("count total records: " ++ e)
      | Except.ok n => Except.ok { result with TotalCount := n }
    else Except.ok result

/-- Embedding of Query.PageByKeySince (schema.go): forward cursor from the given key
    value, then GetPage on the rows the database returns. -/
def Query.PageByKeySince (q : Query) (keyField : String) (keyValue : GoValue)
    (limit : Int) (rows : List Row) : PageResult :=
  let cursor : Cursor := { KeyValue := keyValue, Forward := true, Limit := limit }
  (q.WithCursor keyField (some cursor)).GetPage rows

/-! Go slice aliasing model. `Query.clone` (schema.go) copies the
`Query` struct, deep-copying only `args`; the `QueryConfig` struct copy
shares each slice header with the original, so `JoinClauses` of a clone
points at the SAME backing array. `Query.Join` then appends through that
shared header: when the backing array has spare capacity, Go writes the
new element in place, visibly to every other builder holding a header
over the same array. The model below makes the backing arrays an
explicit heap. -/

/-- A Go slice header over the heap: backing array id, length, capacity.
    The slices built by the builder always start at offset zero. -/
structure GoSlice where
  arrId : Nat
  len : Nat
  cap : Nat
deriving DecidableEq, Repr

/-- The heap of string backing arrays, indexed by `arrId`; each array is
    stored at its full capacity. -/
abbrev SliceHeap := List (List String)

/-- Backing array of an id. -/
def heapArr (h : SliceHeap) (i : Nat) : List String :=
  List.getD h i []

/-- Replace the backing array of an id. -/
def heapPut (h : SliceHeap) (i : Nat) (a : List String) : SliceHeap :=
  List.set h i a

/-- The elements a Go slice header denotes: the first `len` cells of its
    backing array. -/
def sliceElems (h : SliceHeap) (s : GoSlice) : List String :=
  (heapArr h s.arrId).take s.len

/-- Go `append(s, x)` for one element: write in place when capacity is
    spare, otherwise allocate a fresh array. Growth follows the Go gc
    runtime for small slices (capacity doubles, starting at one). -/
def goAppend1 (h : SliceHeap) (s : GoSlice) (x : String) : SliceHeap × GoSlice :=
  if s.len < s.cap then
    (heapPut h s.arrId ((heapArr h s.arrId).set s.len x),
     { arrId := s.arrId, len := s.len + 1, cap := s.cap })
  else
    let newCap := if s.cap = 0 then 1 else 2 * s.cap
    let newArr := (heapArr h s.arrId).take s.len ++ [x] ++
      List.replicate (newCap - (s.len + 1)) ""
    (h ++ [newArr], { arrId := h.length, len := s.len + 1, cap := newCap })

/-- Embedding of Query.Join at the heap level: `clone` copies the struct (the
    `JoinClauses` header is copied, its backing array is not), then
    `append` adds the clause through the copied header. Only the
    `JoinClauses` component is tracked; `clone` deep-copies `args` into
    a fresh array and `Select` replaces the `SelectFields` header
    wholesale, so neither is ever written through a shared header. -/
def joinH (h : SliceHeap) (joins : GoSlice) (clause : String) : SliceHeap × GoSlice :=
  goAppend1 h joins clause

/-- Comparison operator of the single-key direction table: forward over
    an ascending order moves with ">", backward with "<"; a descending
    order flips both. -/
def cursorOp (forward : Bool) (desc : Bool) : String :=
  if forward then (if desc then "<" else ">")
  else (if desc then ">" else "<")

/-! Concrete fixtures used by witnesses and counterexamples. -/

/-- A fresh query over the `users` table. -/
def usersQ : Query := { table := "users", config := QueryConfig.empty, args := [] }

/-- The `users` query filtered on a status bind, ordered descending,
    as a base for cursor application. -/
def usersFilteredDescQ : Query :=
  { table := "users",
    config := { QueryConfig.empty with OrderBy := "id DESC", WhereClause := "status = $1" },
    args := [GoValue.str "active"] }

/-- A forward cursor at key value 100 with page size 10. -/
def fwdCursor100 : Cursor := { KeyValue := GoValue.int 100, Forward := true, Limit := 10 }

/-- Direction the claims are amended against: the uppercased second
    whitespace-delimited token of an ORDER BY fragment, `ASC` when the
    fragment has exactly one token. -/
def effectiveDirection (orderBy : String) : String :=
  match goFields orderBy with
  | _ :: t :: _ => goToUpper t
  | _ => "ASC"

/-- The `users` query ordered by a two-column fragment. -/
def multiOrderQ : Query := usersQ.OrderByQ "name ASC, id DESC"

/-- The `users` query with limit 1, no cursor involved. -/
def limit1Q : Query := usersQ.LimitQ 1

/-- An executed page query: limit 2 with a WHERE fragment and one bind. -/
def pagedQ : Query :=
  { table := "users",
    config := { QueryConfig.empty with Limit := 2, WhereClause := "id > $1" },
    args := [GoValue.int 0] }

/-- Three struct rows whose FIRST declared field is `name` and whose
    second is `id`. -/
def namedRows : List Row :=
  [Row.struct [("name", GoValue.str "a"), ("id", GoValue.int 0)],
   Row.struct [("name", GoValue.str "b"), ("id", GoValue.int 1)],
   Row.struct [("name", GoValue.str "c"), ("id", GoValue.int 2)]]

/-- Three rows that are not structs, as when the destination slice holds
    pointers (the repository tests page into `[]*TestUser`). -/
def ptrRows : List Row := [Row.notStruct, Row.notStruct, Row.notStruct]

/-- Three struct rows whose first field holds the nil interface. -/
def nullFieldRows : List Row :=
  [Row.struct [("id", GoValue.null)], Row.struct [("id", GoValue.null)],
   Row.struct [("id", GoValue.null)]]

/-- A composite cursor over `id DESC, name ASC` with both key values. -/
def compCursor : CompositeCursor :=
  { KeyValues := [("id", GoValue.int 100), ("name", GoValue.str "User")],
    OrderFields := [{ Name := "id", Direction := "DESC" }, { Name := "name", Direction := "ASC" }],
    Forward := true, Limit := 10 }

/-! Join-aliasing scenario: three joins build a backing array of
capacity four holding three clauses; two sibling builders then each
append their own fourth clause through the shared header. -/

/-- Initial heap: one empty backing array. -/
def joinHeap0 : SliceHeap := [[]]

/-- Empty `JoinClauses` header of the base builder. -/
def joinSlice0 : GoSlice := { arrId := 0, len := 0, cap := 0 }

/-- State after `Join("J1")`. -/
def joinStep1 : SliceHeap × GoSlice := joinH joinHeap0 joinSlice0 "J1"

/-- State after `.Join("J2")`. -/
def joinStep2 : SliceHeap × GoSlice := joinH joinStep1.1 joinStep1.2 "J2"

/-- State after `.Join("J3")`: length three, capacity four. -/
def joinStep3 : SliceHeap × GoSlice := joinH joinStep2.1 joinStep2.2 "J3"

/-- First sibling: the ancestor of `joinStep3` gets `Join("J4a")`. -/
def joinStepA : SliceHeap × GoSlice := joinH joinStep3.1 joinStep3.2 "J4a"

/-- Second sibling: the SAME ancestor gets `Join("J4b")` afterwards. -/
def joinStepB : SliceHeap × GoSlice := joinH joinStepA.1 joinStep3.2 "J4b"

/-! Helper evaluation lemmas for the string fragments the claims use. -/

lemma goFields_id_asc : goFields "id ASC" = ["id", "ASC"] := rfl

lemma goFields_id_desc : goFields "id DESC" = ["id", "DESC"] := rfl

lemma goToUpper_asc : goToUpper "ASC" = "ASC" := rfl

lemma goToUpper_desc : goToUpper "DESC" = "DESC" := rfl

lemma str_merge_and_id (z : String) :
    ") AND (" ++ ("id " ++ z) = ") AND (id " ++ z := by
  rw [← String.append_assoc]; simp

lemma direction_padded_eq (ob : String) (h : goFields ob ≠ []) :
    goToUpper ((if (goFields ob).length < 2 then goFields ob ++ ["ASC"]
      else goFields ob).getD 1 "") = effectiveDirection ob := by
  rcases hg : goFields ob with _ | ⟨a, _ | ⟨b, t⟩⟩
  · exact absurd hg h
  · simp [effectiveDirection, hg, goToUpper_asc]
  · have h2 : ¬ (t.length + 1 + 1 < 2) := by omega
    simp [effectiveDirection, hg, h2]

lemma head?_take (rows : List Row) (k : Nat) (hk : 0 < k) :
    (rows.take k).head? = rows.head? := by
  cases rows <;> cases k <;> simp_all

/-- Claim C7: the SQL renderer is a pure function of the table and clause
    configuration (the argument list does not influence the text, and
    equal configurations give byte-identical output), and the reference
    configuration renders to exactly the expected byte string, clauses
    in the order SELECT, FROM, JOIN, WHERE, GROUP BY, HAVING, ORDER BY,
    LIMIT, OFFSET, FOR UPDATE. -/
theorem buildSelectQuery_clause_order :
    (∀ (t : String) (c : QueryConfig) (a a' : List GoValue),
      Query.buildSelectQuery { table := t, config := c, args := a } =
        Query.buildSelectQuery { table := t, config := c, args := a' }) ∧
    Query.buildSelectQuery
      { table := "users",
        config := { SelectFields := ["id", "name"], WhereClause := "age > $1",
                    OrderBy := "name ASC", Limit := 10, Offset := 20,
                    JoinClauses := ["INNER JOIN p ON …"], GroupBy := "dept",
                    Having := "COUNT(*) > 3", ForUpdate := true },
        args := [] } =
      "SELECT id, name FROM users INNER JOIN p ON … WHERE age > $1 GROUP BY dept HAVING COUNT(*) > 3 ORDER BY name ASC LIMIT 10 OFFSET 20 FOR UPDATE" := by
  refine ⟨fun t c a a' => rfl, by decide⟩

/-- Claim C6: a nil cursor and an empty key field both leave limit, WHERE
    fragment and argument list unchanged, while a cursor with a nil key
    value, limit 10 and forward direction bumps the limit to 11 and
    leaves WHERE and arguments unchanged. -/
theorem withCursor_noop_boundaries :
    ∀ (q : Query) (c : Cursor),
      (q.WithCursor "id" none).config.Limit = q.config.Limit ∧
      (q.WithCursor "id" none).config.WhereClause = q.config.WhereClause ∧
      (q.WithCursor "id" none).args = q.args ∧
      (q.WithCursor "" (some c)).config.Limit = q.config.Limit ∧
      (q.WithCursor "" (some c)).config.WhereClause = q.config.WhereClause ∧
      (q.WithCursor "" (some c)).args = q.args ∧
      (q.WithCursor "id" (some { KeyValue := GoValue.null, Forward := true, Limit := 10 })).config.Limit = 11 ∧
      (q.WithCursor "id" (some { KeyValue := GoValue.null, Forward := true, Limit := 10 })).config.WhereClause = q.config.WhereClause ∧
      (q.WithCursor "id" (some { KeyValue := GoValue.null, Forward := true, Limit := 10 })).args = q.args := by
  intro q c
  refine ⟨rfl, rfl, rfl, ?_, ?_, ?_, ?_, ?_, ?_⟩ <;>
    simp [Query.WithCursor, Query.LimitQ]

/-- Claim C1: with ORDER BY "id ASC" (or defaulted from empty) or "id DESC",
    a cursor with non-nil key value and positive limit yields the
    comparison operator of the 2x2 direction table (forward+ASC and
    backward+DESC give ">", the other two give "<"), binds the key value
    as the final argument, and bumps the limit to cursor.limit + 1. -/
theorem withCursor_direction_table (q : Query) (c : Cursor)
    (hob : q.config.OrderBy = "" ∨ q.config.OrderBy = "id ASC" ∨ q.config.OrderBy = "id DESC")
    (hkv : c.KeyValue ≠ GoValue.null) (hl : c.Limit > 0) :
    (q.WithCursor "id" (some c)).config.Limit = c.Limit + 1 ∧
    (q.config.WhereClause = "" →
      (q.WithCursor "id" (some c)).config.WhereClause =
        "id " ++ cursorOp c.Forward (decide (q.config.OrderBy = "id DESC")) ++ " ?" ∧
      (q.WithCursor "id" (some c)).args = [c.KeyValue]) ∧
    (q.config.WhereClause ≠ "" →
      (q.WithCursor "id" (some c)).config.WhereClause =
        "(" ++ q.config.WhereClause ++ ") AND (id " ++
          cursorOp c.Forward (decide (q.config.OrderBy = "id DESC")) ++ " ?)" ∧
      (q.WithCursor "id" (some c)).args = q.args ++ [c.KeyValue]) := by
  rcases hob with h | h | h <;>
    by_cases hw : q.config.WhereClause = "" <;>
      simp [Query.WithCursor, Query.LimitQ, Query.OrderByQ, cursorOp, h, hw, hkv, hl,
        goFields_id_asc, goFields_id_desc, goToUpper_asc, goToUpper_desc,
        String.append_assoc, str_merge_and_id]

/-- Witness for `withCursor_direction_table` at a concrete query and
    cursor. -/
theorem withCursor_direction_table_witness :
    (usersFilteredDescQ.WithCursor "id" (some fwdCursor100)).config.Limit =
      fwdCursor100.Limit + 1 ∧
    (usersFilteredDescQ.config.WhereClause ≠ "" →
      (usersFilteredDescQ.WithCursor "id" (some fwdCursor100)).config.WhereClause =
        "(" ++ usersFilteredDescQ.config.WhereClause ++ ") AND (id " ++
          cursorOp fwdCursor100.Forward
            (decide (usersFilteredDescQ.config.OrderBy = "id DESC")) ++ " ?)" ∧
      (usersFilteredDescQ.WithCursor "id" (some fwdCursor100)).args =
        usersFilteredDescQ.args ++ [fwdCursor100.KeyValue]) := by
  obtain ⟨h1, _, h3⟩ := withCursor_direction_table usersFilteredDescQ fwdCursor100
    (Or.inr (Or.inr rfl)) (by decide) (by decide)
  exact ⟨h1, h3⟩

/-- Claim C3 (demonstration of the code bug): the receiver of Join is
    itself observably unchanged, but the two sibling builders derived
    from the same three-join ancestor share the backing array of
    `JoinClauses`; the second sibling's append overwrites the cell the
    first sibling renders, so after `Join("J4b")` on the sibling the
    first one renders `J4b` where it had appended `J4a`. -/
theorem joinClauses_shared_backing :
    sliceElems joinStepA.1 joinStepA.2 = ["J1", "J2", "J3", "J4a"] ∧
    sliceElems joinStepB.1 joinStepA.2 = ["J1", "J2", "J3", "J4b"] ∧
    sliceElems joinStepA.1 joinStep3.2 = ["J1", "J2", "J3"] ∧
    sliceElems joinStepB.1 joinStep3.2 = ["J1", "J2", "J3"] ∧
    joinStepA.2.arrId = joinStepB.2.arrId := by decide

/-- Claim C10: the page assembler reads the cursor key from field index
    0 of the boundary row (here the `name` column, although the key
    field is `id`), and the has-flags can disagree with the cursors:
    non-struct rows, or a nil first field, give `HasNext = true` with
    `NextCursor = none`, and symmetrically for `HasPrev`/`PrevCursor`. -/
theorem getPage_field0_and_flag_disagreement :
    (pagedQ.GetPage namedRows).NextCursor =
      some { KeyValue := GoValue.str "b", Forward := true, Limit := 2 } ∧
    (pagedQ.GetPage namedRows).PrevCursor =
      some { KeyValue := GoValue.str "a", Forward := false, Limit := 2 } ∧
    rowFieldNamed (Row.struct [("name", GoValue.str "b"), ("id", GoValue.int 1)]) "id" =
      GoValue.int 1 ∧
    GoValue.str "b" ≠ GoValue.int 1 ∧
    (pagedQ.GetPage ptrRows).HasNext = true ∧
    (pagedQ.GetPage ptrRows).NextCursor = none ∧
    (pagedQ.GetPage ptrRows).HasPrev = true ∧
    (pagedQ.GetPage ptrRows).PrevCursor = none ∧
    (pagedQ.GetPage nullFieldRows).HasNext = true ∧
    (pagedQ.GetPage nullFieldRows).NextCursor = none := by decide

/-- Claim C2 (counterexample): with executed limit 1 and three returned
    rows the result is trimmed by exactly one row, to two rows, not down
    to the limit of one as the claim states. -/
theorem getPage_trim_cex :
    (limit1Q.GetPage ptrRows).HasNext = true ∧
    (limit1Q.GetPage ptrRows).Data.length = 2 ∧
    limit1Q.config.Limit = 1 ∧
    (limit1Q.GetPage ptrRows).Data.length ≠ 1 := by decide

/-- Claim C9: a count failure after a successful data query aborts the
    whole page call with the `count total records` operation wrapped
    around the error and no page result; on success the count lands in
    `TotalCount` of the otherwise identical result; the count round trip
    runs the COUNT SQL of a clone of the executed query sharing its
    WHERE and argument list, whose SQL is byte-identical to that of a
    clone with limit and offset both reset. -/
theorem getPage_count_failure_aborts (q : Query) (rows : List Row) (e : String) (n : Int) :
    q.GetPageE (Except.ok rows) true (Except.error e) =
      Except.error ("count total records: " ++ e) ∧
    q.GetPageE (Except.ok rows) true (Except.ok n) =
      Except.ok { q.GetPage rows with TotalCount := n } ∧
    q.pageCountTemp.countQuery =
      Query.countQuery { q with config := { q.config with Limit := 0, Offset := 0 } } ∧
    q.pageCountTemp.args = q.args := by
  exact ⟨rfl, rfl, rfl, rfl⟩

/-- Claim C5: a nil composite cursor, an empty key-value map or an empty
    ordered-field list leave the query unchanged; otherwise ORDER BY is
    replaced by the comma-joined name-direction pairs in field order and
    the WHERE fragment gains a row-tuple predicate over the field names
    with one placeholder per field, values looked up by name (missing
    names binding null), the single operator `>` when forward and `<`
    otherwise, AND-combined with any existing WHERE with the tuple binds
    appended after the existing arguments. -/
theorem withCompositeCursor_spec (q : Query) (c : CompositeCursor) :
    (q.WithCompositeCursor none = q) ∧
    (c.KeyValues = [] ∨ c.OrderFields = [] → q.WithCompositeCursor (some c) = q) ∧
    (c.KeyValues ≠ [] → c.OrderFields ≠ [] →
      (q.WithCompositeCursor (some c)).config.OrderBy =
        String.intercalate ", " (c.OrderFields.map (fun f => f.Name ++ " " ++ f.Direction)) ∧
      (q.config.WhereClause = "" →
        (q.WithCompositeCursor (some c)).config.WhereClause =
          "(" ++ String.intercalate ", " (c.OrderFields.map (fun f => f.Name)) ++ ") " ++
            (if c.Forward then ">" else "<") ++
            " (" ++ String.intercalate ", " (c.OrderFields.map (fun _ => "?")) ++ ")" ∧
        (q.WithCompositeCursor (some c)).args =
          c.OrderFields.map (fun f =>
            match c.KeyValues.lookup f.Name with
            | some v => v
            | none => GoValue.null)) ∧
      (q.config.WhereClause ≠ "" →
        (q.WithCompositeCursor (some c)).config.WhereClause =
          "(" ++ q.config.WhereClause ++ ") AND (" ++
            ("(" ++ String.intercalate ", " (c.OrderFields.map (fun f => f.Name)) ++ ") " ++
              (if c.Forward then ">" else "<") ++
              " (" ++ String.intercalate ", " (c.OrderFields.map (fun _ => "?")) ++ ")") ++ ")" ∧
        (q.WithCompositeCursor (some c)).args =
          q.args ++ c.OrderFields.map (fun f =>
            match c.KeyValues.lookup f.Name with
            | some v => v
            | none => GoValue.null))) := by
  refine ⟨rfl, ?_, ?_⟩
  · intro h
    rcases h with h | h <;> simp [Query.WithCompositeCursor, h]
  · intro h1 h2
    by_cases hw : q.config.WhereClause = "" <;>
      by_cases hl : (0 : Int) < c.Limit <;>
        simp [Query.WithCompositeCursor, h1, h2, hw, hl, List.length_eq_zero]

/-- Witness for `withCompositeCursor_spec` on the reference composite
    cursor over `id DESC, name ASC`. -/
theorem withCompositeCursor_spec_witness :
    (usersQ.WithCompositeCursor (some compCursor)).config.OrderBy =
      String.intercalate ", "
        (compCursor.OrderFields.map (fun f => f.Name ++ " " ++ f.Direction)) ∧
    (usersQ.WithCompositeCursor (some compCursor)).config.OrderBy = "id DESC, name ASC" := by
  have h := (withCompositeCursor_spec usersQ compCursor).2.2 (by decide) (by decide)
  exact ⟨h.1, by decide⟩

/-- Claim C2 (amended): `HasNext` is true exactly when the executed
    limit is positive and the returned row count exceeds it; on trimming
    exactly ONE row is removed (the collection becomes `resultCount - 1`
    rows, which equals the limit precisely when exactly one extra row
    came back); without the over-fetch condition the data is untouched.
    In particular limit 2 with 3 rows trims to the first 2 rows with
    `HasNext = true`, and limit 2 with 2 or fewer rows reports
    `HasNext = false`. -/
theorem getPage_overfetch_amended (q : Query) (rows : List Row) :
    ((q.GetPage rows).HasNext = true ↔
      0 < q.config.Limit ∧ q.config.Limit < (rows.length : Int)) ∧
    (0 < q.config.Limit → q.config.Limit < (rows.length : Int) →
      (q.GetPage rows).Data = rows.take (rows.length - 1)) ∧
    (¬(0 < q.config.Limit ∧ q.config.Limit < (rows.length : Int)) →
      (q.GetPage rows).Data = rows) ∧
    (q.config.Limit = 2 → rows.length = 3 →
      (q.GetPage rows).Data = rows.take 2 ∧ (q.GetPage rows).HasNext = true) ∧
    (q.config.Limit = 2 → rows.length ≤ 2 → (q.GetPage rows).HasNext = false) := by
  refine ⟨?_, ?_, ?_, ?_, ?_⟩
  · by_cases h1 : 0 < q.config.Limit <;> by_cases h2 : q.config.Limit < (rows.length : Int)
    · have h3 : 0 < rows.length := by omega
      simp [Query.GetPage, h1, h2, h3]
    all_goals simp [Query.GetPage, h1, h2]
  · intro h1 h2
    have h3 : 0 < rows.length := by omega
    simp [Query.GetPage, h1, h2, h3]
  · intro h
    by_cases h1 : 0 < q.config.Limit <;> by_cases h2 : q.config.Limit < (rows.length : Int)
    · exact absurd ⟨h1, h2⟩ h
    all_goals simp [Query.GetPage, h1, h2]
  · intro hl hr
    have h1 : 0 < q.config.Limit := by omega
    have h2 : q.config.Limit < (rows.length : Int) := by
      rw [hl, hr]; norm_num
    have h3 : 0 < rows.length := by omega
    simp [Query.GetPage, h1, h2, h3, hl, hr]
  · intro hl hr
    have h2 : ¬ q.config.Limit < (rows.length : Int) := by
      rw [hl]; exact_mod_cast by omega
    simp [Query.GetPage, h2]

/-- Witness for `getPage_overfetch_amended` at limit 2 and three rows. -/
theorem getPage_overfetch_amended_witness :
    ((usersQ.LimitQ 2).GetPage ptrRows).Data = ptrRows.take 2 ∧
    ((usersQ.LimitQ 2).GetPage ptrRows).HasNext = true := by
  exact (getPage_overfetch_amended (usersQ.LimitQ 2) ptrRows).2.2.2.1 rfl rfl

/-- Claim C4 (counterexample): on the two-column fragment
    `name ASC, id DESC` (explicitly cited by the claim as yielding the
    ASC operator `>` for a forward cursor), the code takes the second
    whitespace token `ASC,`, finds it different from `ASC`, and emits
    the DESCENDING operator: the predicate is `id < ?`, not `id > ?`. -/
theorem withCursor_last_token_cex :
    (multiOrderQ.WithCursor "id" (some fwdCursor100)).config.WhereClause = "id < ?" ∧
    ("id < ?" : String) ≠ "id > ?" := by decide

/-- Claim C4 (amended): with a non-nil key value and nonempty key field,
    a missing ORDER BY is defaulted to `<keyField> ASC` and an existing
    one is kept; the effective direction is the uppercased SECOND
    whitespace-delimited token of the effective fragment (`ASC` when the
    fragment has exactly one token), and the ascending operators are
    chosen exactly when that token uppercases to `ASC` — any other
    token, such as `ASC,` inside a multi-column fragment, selects the
    descending operators. -/
theorem withCursor_direction_amended (q : Query) (keyField : String) (c : Cursor)
    (hk : keyField ≠ "") (hkv : c.KeyValue ≠ GoValue.null)
    (hfields : goFields (if q.config.OrderBy = "" then keyField ++ " ASC"
      else q.config.OrderBy) ≠ []) :
    (q.config.OrderBy = "" →
      (q.WithCursor keyField (some c)).config.OrderBy = keyField ++ " ASC") ∧
    (q.config.OrderBy ≠ "" →
      (q.WithCursor keyField (some c)).config.OrderBy = q.config.OrderBy) ∧
    (q.WithCursor keyField (some c)).config.WhereClause =
      (if q.config.WhereClause = "" then
        keyField ++ " " ++
          (if c.Forward then
            (if effectiveDirection (if q.config.OrderBy = "" then keyField ++ " ASC"
              else q.config.OrderBy) = "ASC" then ">" else "<")
           else
            (if effectiveDirection (if q.config.OrderBy = "" then keyField ++ " ASC"
              else q.config.OrderBy) = "ASC" then "<" else ">")) ++ " ?"
       else
        "(" ++ q.config.WhereClause ++ ") AND (" ++
          (keyField ++ " " ++
            (if c.Forward then
              (if effectiveDirection (if q.config.OrderBy = "" then keyField ++ " ASC"
                else q.config.OrderBy) = "ASC" then ">" else "<")
             else
              (if effectiveDirection (if q.config.OrderBy = "" then keyField ++ " ASC"
                else q.config.OrderBy) = "ASC" then "<" else ">")) ++ " ?") ++ ")") := by
  have hd := direction_padded_eq _ hfields
  simp only [List.getD_eq_getElem?_getD] at hd
  by_cases hob : q.config.OrderBy = "" <;>
    by_cases hl : (0 : Int) < c.Limit <;>
      by_cases hw : q.config.WhereClause = "" <;>
        simp only [hob, if_true, if_false, eq_self_iff_true, ne_eq,
          not_true_eq_false, not_false_eq_true, ite_true, ite_false] at hd ⊢ <;>
        simp [Query.WithCursor, Query.LimitQ, Query.OrderByQ, hk, hkv, hl, hob, hw, hd]

/-- Witness for `withCursor_direction_amended` on the two-column
    fragment with a forward cursor. -/
theorem withCursor_direction_amended_witness :
    (multiOrderQ.config.OrderBy ≠ "" →
      (multiOrderQ.WithCursor "id" (some fwdCursor100)).config.OrderBy =
        multiOrderQ.config.OrderBy) ∧
    effectiveDirection "name ASC, id DESC" ≠ "ASC" := by
  have h := withCursor_direction_amended multiOrderQ "id" fwdCursor100
    (by decide) (by decide) (by decide)
  exact ⟨h.2.1, by decide⟩

/-- Claim C8 (counterexample): paging forward from key `id = 5` with
    page size 1 over rows whose FIRST struct field is `name`, the next
    cursor holds the `name` value of the boundary row (not the `id`
    key-field value) and the executed, bumped limit 2 (not the caller's
    page size 1). -/
theorem getPage_nextCursor_cex :
    (usersQ.PageByKeySince "id" (GoValue.int 5) 1 namedRows).NextCursor =
      some { KeyValue := GoValue.str "b", Forward := true, Limit := 2 } ∧
    rowFieldNamed (Row.struct [("name", GoValue.str "b"), ("id", GoValue.int 1)]) "id" =
      GoValue.int 1 ∧
    GoValue.str "b" ≠ GoValue.int 1 ∧
    (2 : Int) ≠ 1 := by decide

/-- Claim C8 (amended): when the result is trimmed the next cursor is
    derived from the last remaining row, holding that row's FIRST field
    value (or no cursor at all when that value is nil), with forward set
    and the EXECUTED configuration's limit; `HasPrev` holds exactly when
    the executed WHERE fragment is non-empty and at least one row came
    back, and the previous cursor is derived the same way from the first
    returned row with forward unset and the executed limit. -/
theorem getPage_cursor_derivation (q : Query) (rows : List Row) (lastRow firstRow : Row) :
    ((q.GetPage rows).HasPrev = true ↔ q.config.WhereClause ≠ "" ∧ 0 < rows.length) ∧
    (0 < q.config.Limit → q.config.Limit < (rows.length : Int) →
      (rows.take (rows.length - 1)).getLast? = some lastRow →
      (q.GetPage rows).NextCursor =
        (if rowField0 lastRow ≠ GoValue.null then
          some { KeyValue := rowField0 lastRow, Forward := true, Limit := q.config.Limit }
         else none)) ∧
    (¬(0 < q.config.Limit ∧ q.config.Limit < (rows.length : Int)) →
      (q.GetPage rows).NextCursor = none) ∧
    (q.config.WhereClause ≠ "" → rows.head? = some firstRow →
      (q.GetPage rows).PrevCursor =
        (if rowField0 firstRow ≠ GoValue.null then
          some { KeyValue := rowField0 firstRow, Forward := false, Limit := q.config.Limit }
         else none)) ∧
    (q.config.WhereClause = "" → (q.GetPage rows).PrevCursor = none) := by
  refine ⟨?_, ?_, ?_, ?_, ?_⟩
  · by_cases hw : q.config.WhereClause = "" <;> by_cases hn : 0 < rows.length <;>
      simp [Query.GetPage, hw, hn]
  · intro h1 h2 hlast
    have h3 : 0 < rows.length := by omega
    simp [Query.GetPage, h1, h2, h3, hlast]
  · intro h
    by_cases h1 : 0 < q.config.Limit <;> by_cases h2 : q.config.Limit < (rows.length : Int)
    · exact absurd ⟨h1, h2⟩ h
    all_goals simp [Query.GetPage, h1, h2]
  · intro hw hfirst
    have h3 : 0 < rows.length := by
      cases rows
      · simp at hfirst
      · simp
    by_cases h1 : 0 < q.config.Limit <;> by_cases h2 : q.config.Limit < (rows.length : Int)
    · have h4 : 0 < rows.length - 1 := by omega
      simp [Query.GetPage, h1, h2, h3, hw, head?_take rows _ h4, hfirst]
    all_goals simp [Query.GetPage, h1, h2, h3, hw, hfirst]
  · intro hw
    simp [Query.GetPage, hw]

/-- Witness for `getPage_cursor_derivation` on the named rows. -/
theorem getPage_cursor_derivation_witness :
    (pagedQ.GetPage namedRows).PrevCursor =
      (if rowField0 (Row.struct [("name", GoValue.str "a"), ("id", GoValue.int 0)]) ≠ GoValue.null
       then some { KeyValue := rowField0 (Row.struct [("name", GoValue.str "a"), ("id", GoValue.int 0)]),
                   Forward := false, Limit := pagedQ.config.Limit }
       else none) := by
  exact (getPage_cursor_derivation pagedQ namedRows Row.notStruct
    (Row.struct [("name", GoValue.str "a"), ("id", GoValue.int 0)])).2.2.2.1
    (by decide) (by decide)

end PgHelper
